import Mathlib

/-!
Shallow embedding of the interactive TUI of mrr-cli (package `ui`, type `TUI`),
together with the amount-parsing pipeline it uses (`strconv.ParseFloat` on the
input buffer followed by multiplication by 100 and truncation to `int64`).

Conventions of the embedding:
* Go `int`/`int64` are modelled as `Int` (the quantities involved are far from
  the 64-bit boundaries, and no arithmetic here wraps).
* Go strings are modelled as `String`; Go measures and slices strings by bytes
  while this model works with characters, which agree on ASCII (every string
  the claims touch is ASCII).
* The record store (`db.GetAllEntries`, `db.AddEntry`, `db.UpdateEntry`,
  `db.DeleteEntry`) is the external collaborator: each event step receives the
  outcome the store would return for the calls issued during that step, and
  the mutations issued are reported as a `StoreCall` list.
* Go runtime panics (out-of-range index or slice) are modelled by `Option`:
  `none` is a panic.
* `float64` values are modelled as the exact rationals they denote; rounding
  to the nearest binary64 value (round-to-nearest, ties-to-even) is `f64round`,
  which is faithful for values in the normal finite range (all amounts here).
-/

/-- Message style, abstracting the `tcell.Style` values the TUI uses. -/
inductive Style
  | default
  | red
  | green
deriving DecidableEq

/-- `models.Entry`. `CreatedAt` is omitted (the TUI never reads it) and the
date is abstracted to an integer day code (the TUI only passes it through). -/
structure Entry where
  ID : Int
  Amount : Int
  Source : String
  Type' : String
  Note : String
  Date : Int
deriving DecidableEq

/-- The controller state: the fields of `ui.TUI` except the `tcell.Screen`
handle (which is pure I/O). -/
structure TUI where
  entries : List Entry
  selected : Int
  offset : Int
  width : Int
  height : Int
  inputMode : String
  inputBuf : String
  message : String
  msgStyle : Style
deriving DecidableEq

/-- Results the record store would return for the calls an event step can
issue, plus the current date (`time.Now()`), abstracted as step inputs. -/
structure StoreOracle where
  addRes : Except String Int
  updateRes : Except String Unit
  deleteRes : Except String Unit
  getAllRes : Except String (List Entry)
  now : Int

/-- A store mutation issued by the controller, with the arguments passed. -/
inductive StoreCall
  | add (amountCents : Int) (source kind note : String) (date : Int)
  | update (id : Int) (amountCents : Int)
  | delete (id : Int)
deriving DecidableEq

/-! Amount parsing: `strconv.ParseFloat(s, 64)` on the decimal forms the TUI
deals with, i.e. `[+-]? digits [. digits]? ([eE] [+-]? digits)?` with at least
one mantissa digit. (Go additionally accepts hex floats, `inf`/`nan` and
digit-separating underscores; those forms are outside the amounts this spec
exercises and are not modelled.) The decimal value is read exactly as a
rational and then correctly rounded to binary64 by `f64round`, which is
exactly what `strconv.ParseFloat` guarantees. -/

/-- Value of a digit string (most significant first). -/
def digitsToNat (l : List Char) : ℕ :=
  l.foldl (fun a c => 10 * a + (c.toNat - 48)) 0

/-- Floor of log2 on positive naturals, by fuelled structural recursion so
that it reduces in the kernel. -/
def log2fuel : ℕ → ℕ → ℕ
  | 0, _ => 0
  | f + 1, n => if 2 ≤ n then log2fuel f (n / 2) + 1 else 0

/-- `natLog2 n` is the greatest `e` with `2^e ≤ n`, for `n ≥ 1`. -/
def natLog2 (n : ℕ) : ℕ := log2fuel n n

/-- Least `j` with `d ≤ 2^j`, for `d ≥ 1`, by fuelled recursion. -/
def clog2fuel : ℕ → ℚ → ℕ
  | 0, _ => 0
  | f + 1, d => if d ≤ 1 then 0 else clog2fuel f (d / 2) + 1

/-- Binary exponent of a positive rational: the `e` with `2^e ≤ q < 2^(e+1)`. -/
def ilog2 (q : ℚ) : ℤ :=
  if 1 ≤ q then (natLog2 ⌊q⌋.toNat : ℤ)
  else -(clog2fuel ⌈q⁻¹⌉.toNat q⁻¹ : ℤ)

/-- Round `q` to the grid of multiples of `2^(-k)`, round-to-nearest with
ties-to-even, as IEEE-754 prescribes at that scale. -/
def rnEven (k : ℤ) (q : ℚ) : ℚ :=
  let s : ℚ := q * 2 ^ k
  let f : ℤ := ⌊s⌋
  let r : ℚ := s - f
  let n : ℤ := if r < 1 / 2 then f else if 1 / 2 < r then f + 1 else if f % 2 = 0 then f else f + 1
  (n : ℚ) / 2 ^ k

/-- Correct rounding of a rational to the nearest binary64 value
(round-to-nearest, ties-to-even), for values in the normal finite range:
the grid step around `q` with `2^e ≤ |q| < 2^(e+1)` is `2^(e-52)`. -/
def f64round (q : ℚ) : ℚ :=
  if q = 0 then 0
  else if 0 < q then rnEven (52 - ilog2 q) q
  else -(rnEven (52 - ilog2 (-q)) (-q))

/-- Exponent part of a decimal string: an optional sign then digits,
nothing trailing. -/
def parseExpRep (r : List Char) : Option Int :=
  let step : Int × List Char :=
    match r with
    | '+' :: r2 => (1, r2)
    | '-' :: r2 => (-1, r2)
    | _ => (1, r)
  let ed := step.2.takeWhile Char.isDigit
  if ed.isEmpty then none
  else if !(step.2.dropWhile Char.isDigit).isEmpty then none
  else some (step.1 * (digitsToNat ed : Int))

/-- Integer representation of a decimal string `[+-]? ip [. fp]? ([eE] exp)?`:
the signed digit value of `ip ++ fp`, the length of `fp`, and the exponent,
denoting `num / 10 ^ scale * 10 ^ exp`. `none` when `strconv.ParseFloat`
would reject the string. -/
def parseDecimalRep (s : String) : Option (Int × ℕ × Int) :=
  let step1 : Int × List Char :=
    match s.data with
    | '+' :: r => (1, r)
    | '-' :: r => (-1, r)
    | r => (1, r)
  let cs := step1.2
  let ip := cs.takeWhile Char.isDigit
  let cs1 := cs.dropWhile Char.isDigit
  let step2 : List Char × List Char :=
    match cs1 with
    | '.' :: r => (r.takeWhile Char.isDigit, r.dropWhile Char.isDigit)
    | _ => ([], cs1)
  let fp := step2.1
  let cs2 := step2.2
  if ip.isEmpty && fp.isEmpty then none
  else
    let num : Int := step1.1 * (digitsToNat (ip ++ fp) : Int)
    match cs2 with
    | [] => some (num, fp.length, 0)
    | 'e' :: r => (parseExpRep r).map fun e => (num, fp.length, e)
    | 'E' :: r => (parseExpRep r).map fun e => (num, fp.length, e)
    | _ => none

/-- Exact decimal reading of a mantissa-and-exponent string. -/
def parseDecimal (s : String) : Option ℚ :=
  (parseDecimalRep s).map fun p => (p.1 : ℚ) / 10 ^ p.2.1 * 10 ^ p.2.2

/-- `strconv.ParseFloat(s, 64)`: the decimal value, correctly rounded to the
nearest binary64. -/
def goParseFloat (s : String) : Option ℚ :=
  (parseDecimal s).map f64round

/-- Go conversion `int64(x)` on a `float64`: truncation toward zero. -/
def goTrunc (q : ℚ) : Int :=
  if 0 ≤ q then ⌊q⌋ else ⌈q⌉

/-- Go `strings.TrimPrefix(s, "$")`: drop one leading dollar sign if present. -/
def goTrimDollar (s : String) : String :=
  match s.data with
  | '$' :: r => ⟨r⟩
  | _ => s

/-- Lower-casing of one character as Go's `strings.ToLower` maps the
characters relevant here: ASCII `A`-`Z` gain 32, and no other character
(ASCII or not) maps to ASCII `y`. -/
def goCharToLower (c : Char) : Char :=
  if 65 ≤ c.toNat ∧ c.toNat ≤ 90 then Char.ofNat (c.toNat + 32) else c

/-- Go `strings.ToLower`, character by character. -/
def goToLower (s : String) : String :=
  ⟨s.data.map goCharToLower⟩

/-- Go indexing `l[i]` with an `int` index: `none` is the index-out-of-range
panic. -/
def goIndex (l : List Entry) (i : Int) : Option Entry :=
  if 0 ≤ i then l[i.toNat]? else none

/-- `TUI.submitInput` (part_005 lines 134-187). Returns `none` when Go would
panic (selected index out of range in the edit/delete branches); otherwise the
updated state and the store mutations issued, in order. The store results for
the calls come from the oracle. `amountFloat * 100` is a `float64`
multiplication, hence the `f64round` around the exact product before the
truncating `int64` conversion. -/
def submitInput (t : TUI) (o : StoreOracle) : Option (TUI × List StoreCall) :=
  if t.inputMode = "add" then
    let amountStr := goTrimDollar t.inputBuf
    match goParseFloat amountStr with
    | none => some ({ t with message := "Invalid amount", msgStyle := .red }, [])
    | some f =>
      let amountCents := goTrunc (f64round (f * 100))
      match o.addRes with
      | .error e =>
        some ({ t with message := "Error: " ++ e, msgStyle := .red },
              [.add amountCents "manual" "recurring" "" o.now])
      | .ok _ =>
        some ({ t with message := "Entry added!", msgStyle := .green },
              [.add amountCents "manual" "recurring" "" o.now])
  else if t.inputMode = "edit" then
    if t.entries.length = 0 then some (t, [])
    else
      let amountStr := goTrimDollar t.inputBuf
      match goParseFloat amountStr with
      | none => some ({ t with message := "Invalid amount", msgStyle := .red }, [])
      | some f =>
        let amountCents := goTrunc (f64round (f * 100))
        match goIndex t.entries t.selected with
        | none => none
        | some entry =>
          match o.updateRes with
          | .error e =>
            some ({ t with message := "Error: " ++ e, msgStyle := .red },
                  [.update entry.ID amountCents])
          | .ok _ =>
            some ({ t with message := "Entry updated!", msgStyle := .green },
                  [.update entry.ID amountCents])
  else if t.inputMode = "delete" then
    if goToLower t.inputBuf = "y" ∧ 0 < t.entries.length then
      match goIndex t.entries t.selected with
      | none => none
      | some entry =>
        match o.deleteRes with
        | .error e =>
          some ({ t with message := "Error: " ++ e, msgStyle := .red },
                [.delete entry.ID])
        | .ok _ =>
          let t1 : TUI := { t with message := "Entry deleted!", msgStyle := .green }
          some (if 0 < t1.selected then { t1 with selected := t1.selected - 1 } else t1,
                [.delete entry.ID])
    else some ({ t with message := "" }, [])
  else some (t, [])

/-- Key events as `handleInput` distinguishes them. -/
inductive Key
  | escape
  | enter
  | backspace
  | rune (c : Char)
deriving DecidableEq

/-- `TUI.handleInput` (part_005 lines 117-132): the boolean is its return
value (`true` means leave the input mode). -/
def handleInput (t : TUI) (o : StoreOracle) (k : Key) : Option (Bool × TUI × List StoreCall) :=
  match k with
  | .escape => some (true, { t with message := "" }, [])
  | .enter => (submitInput t o).map fun p => (true, p.1, p.2)
  | .backspace =>
    some (false,
          { t with inputBuf := if 0 < t.inputBuf.length then ⟨t.inputBuf.data.dropLast⟩ else t.inputBuf },
          [])
  | .rune c => some (false, { t with inputBuf := ⟨t.inputBuf.data ++ [c]⟩ }, [])

/-- `TUI.refresh` (part_005 lines 189-199), with the store's answer to
`db.GetAllEntries` passed in. -/
def refresh (t : TUI) (res : Except String (List Entry)) : TUI :=
  match res with
  | .error e => { t with message := "Error loading entries: " ++ e, msgStyle := .red }
  | .ok entries =>
    let t1 : TUI := { t with entries := entries }
    if t1.selected ≥ (t1.entries.length : Int) ∧ 0 < t1.entries.length then
      { t1 with selected := (t1.entries.length : Int) - 1 }
    else t1

/-- The visible row count `TUI.adjustOffset` computes (part_005 lines
216-219): `height - 6`, clamped at a minimum of 1. -/
def adjustVisibleRows (height : Int) : Int :=
  let v := height - 6
  if v < 1 then 1 else v

/-- `TUI.adjustOffset` (part_005 lines 215-226): the two conditional offset
updates, applied in order. -/
def adjustOffset (t : TUI) : TUI :=
  let visibleRows := adjustVisibleRows t.height
  let off1 := if t.selected < t.offset then t.selected else t.offset
  let off2 := if t.selected ≥ off1 + visibleRows then t.selected - visibleRows + 1 else off1
  { t with offset := off2 }

/-- `TUI.moveDown` (part_005 lines 201-206). -/
def moveDown (t : TUI) : TUI :=
  if t.selected < (t.entries.length : Int) - 1 then
    adjustOffset { t with selected := t.selected + 1 }
  else t

/-- `TUI.moveUp` (part_005 lines 208-213). -/
def moveUp (t : TUI) : TUI :=
  if 0 < t.selected then
    adjustOffset { t with selected := t.selected - 1 }
  else t

/-- The visible row count `TUI.render` computes (part_005 lines 275-278):
`height - 7`, clamped at a minimum of 1. Note it differs from
`adjustVisibleRows` by one. -/
def renderVisibleRows (height : Int) : Int :=
  let v := height - 7
  if v < 1 then 1 else v

/-- The note cell of one rendered row (part_005 lines 310-318):
`maxNoteLen := width - 58`, clamped at 0; a note longer than that is drawn as
`note[:maxNoteLen-3] + "..."`. In Go the slice bound `maxNoteLen-3` can be
negative, which panics: that is the `none` case. -/
def renderNoteCell (width : Int) (note : String) : Option String :=
  let m0 := width - 58
  let maxNoteLen := if m0 < 0 then 0 else m0
  if (note.data.length : Int) > maxNoteLen then
    if maxNoteLen - 3 < 0 then none
    else some (⟨note.data.take (maxNoteLen - 3).toNat⟩ ++ "...")
  else some note

/-- The entry-row pass of `TUI.render` (part_005 lines 280-319): the loop
`for i := offset; i < len(entries) && i-offset < visibleRows; i++` draws row
`i`, and per row the only write that can fault is the note cell (every other
write is `drawString`/`SetContent`, which bound-check against the width).
`none` when a drawn row's note cell panics, or when the loop would read an
index outside the entries slice. -/
def renderRows (t : TUI) : Option (List String) :=
  let vr := renderVisibleRows t.height
  let stop : Int := min (t.entries.length : Int) (t.offset + vr)
  if stop ≤ t.offset then some []
  else if t.offset < 0 then none
  else
    (List.range (stop - t.offset).toNat).mapM fun j =>
      match t.entries[(t.offset + (j : Int)).toNat]? with
      | none => none
      | some e => renderNoteCell t.width e.Note

/-- Events consumed by the loop `TUI.run` (part_005 lines 50-115). -/
inductive Ev
  | resize (w h : Int)
  | key (k : Key)

/-- One iteration of the event loop `TUI.run`, on the controller state.
`none`: Go panics (the process dies); `some none`: the loop returns and the
session ends; `some (some t')`: the loop continues with state `t'`.
`render` is invoked after every handled event, but it reads and never writes
the fields modelled here, so it does not appear in the state transition; its
own possible fault is modelled by `renderRows`. -/
def eventStep (t : TUI) (o : StoreOracle) (ev : Ev) : Option (Option TUI) :=
  match ev with
  | .resize w h => some (some { t with width := w, height := h })
  | .key k =>
    if t.inputMode ≠ "" then
      match handleInput t o k with
      | none => none
      | some (done, t', _) =>
        if done then
          some (some (refresh { t' with inputMode := "", inputBuf := "" } o.getAllRes))
        else some (some t')
    else
      match k with
      | .escape => some none
      | .enter => some (some t)
      | .backspace => some (some t)
      | .rune c =>
        if c = 'q' then some none
        else if c = 'j' then some (some (moveDown t))
        else if c = 'k' then some (some (moveUp t))
        else if c = 'g' then some (some { t with selected := 0, offset := 0 })
        else if c = 'G' then
          some (some (adjustOffset { t with selected := (t.entries.length : Int) - 1 }))
        else if c = 'a' then
          some (some { t with inputMode := "add", inputBuf := "", message := "Add entry (amount): " })
        else if c = 'e' then
          some (some (if 0 < t.entries.length then
            { t with inputMode := "edit", inputBuf := "", message := "Edit amount: " } else t))
        else if c = 'd' then
          some (some (if 0 < t.entries.length then
            { t with inputMode := "delete", message := "Delete this entry? (y/n): " } else t))
        else if c = 'r' then
          some (some { refresh t o.getAllRes with message := "Refreshed", msgStyle := .green })
        else some (some t)

/-- One `j` or `k` press as the Normal-mode dispatch maps them. -/
inductive MoveKey
  | down
  | up

/-- The state change of one `j`/`k` press in Normal mode. -/
def applyMove (t : TUI) : MoveKey → TUI
  | .down => moveDown t
  | .up => moveUp t

/-- A sequence of `j`/`k` presses in Normal mode. -/
def applyMoves (t : TUI) (ks : List MoveKey) : TUI :=
  ks.foldl applyMove t

/-- The scroll invariant with the visible row count `adjustOffset` maintains
(`height - 6`, clamped at 1). -/
def scrollInvariant (t : TUI) : Prop :=
  0 ≤ t.selected ∧ t.selected < (t.entries.length : Int) ∧
  t.offset ≤ t.selected ∧ t.selected ≤ t.offset + adjustVisibleRows t.height - 1

/-- The scroll invariant with the visible row count the renderer uses
(`height - 7`, clamped at 1): selected lies among the drawn rows. -/
def renderScrollInvariant (t : TUI) : Prop :=
  0 ≤ t.selected ∧ t.selected < (t.entries.length : Int) ∧
  t.offset ≤ t.selected ∧ t.selected ≤ t.offset + renderVisibleRows t.height - 1

instance (t : TUI) : Decidable (scrollInvariant t) := by
  unfold scrollInvariant; infer_instance

instance (t : TUI) : Decidable (renderScrollInvariant t) := by
  unfold renderScrollInvariant; infer_instance

/-! Helper lemmas about the scroll arithmetic. -/

lemma adjustVisibleRows_pos (h : Int) : 1 ≤ adjustVisibleRows h := by
  simp only [adjustVisibleRows]
  split <;> omega

lemma adjustOffset_selected (t : TUI) : (adjustOffset t).selected = t.selected := rfl

lemma adjustOffset_entries (t : TUI) : (adjustOffset t).entries = t.entries := rfl

lemma adjustOffset_height (t : TUI) : (adjustOffset t).height = t.height := rfl

lemma adjustOffset_window (t : TUI) :
    (adjustOffset t).offset ≤ t.selected ∧
    t.selected ≤ (adjustOffset t).offset + adjustVisibleRows t.height - 1 := by
  have h1 := adjustVisibleRows_pos t.height
  simp only [adjustOffset]
  split_ifs <;> constructor <;> omega

lemma moveDown_scrollInvariant (t : TUI) (h : scrollInvariant t) :
    scrollInvariant (moveDown t) := by
  obtain ⟨h0, h1, h2, h3⟩ := h
  unfold moveDown
  split_ifs with hlt
  · have hw := adjustOffset_window { t with selected := t.selected + 1 }
    refine ⟨?_, ?_, ?_, ?_⟩ <;>
      simp only [adjustOffset_selected, adjustOffset_entries, adjustOffset_height] at * <;>
      omega
  · exact ⟨h0, h1, h2, h3⟩

lemma moveUp_scrollInvariant (t : TUI) (h : scrollInvariant t) :
    scrollInvariant (moveUp t) := by
  obtain ⟨h0, h1, h2, h3⟩ := h
  unfold moveUp
  split_ifs with hlt
  · have hw := adjustOffset_window { t with selected := t.selected - 1 }
    refine ⟨?_, ?_, ?_, ?_⟩ <;>
      simp only [adjustOffset_selected, adjustOffset_entries, adjustOffset_height] at * <;>
      omega
  · exact ⟨h0, h1, h2, h3⟩

lemma applyMove_scrollInvariant (t : TUI) (k : MoveKey) (h : scrollInvariant t) :
    scrollInvariant (applyMove t k) := by
  cases k
  · exact moveDown_scrollInvariant t h
  · exact moveUp_scrollInvariant t h

/-! Concrete states used by counterexamples and witnesses. -/

/-- A sample entry. -/
def e1 : Entry := ⟨1, 4999, "manual", "recurring", "", 20000⟩

/-- A second sample entry. -/
def e2 : Entry := ⟨2, 1950, "stripe", "recurring", "", 20001⟩

/-- An oracle whose store calls all succeed and whose reload returns `[e1]`. -/
def oAll : StoreOracle := ⟨.ok 1, .ok (), .ok (), .ok [e1], 20000⟩

/-- Normal-mode state: two entries, cursor at the top, terminal height 8. -/
def t2c : TUI := ⟨[e1, e2], 0, 0, 80, 8, "", "", "", .default⟩

/-- Normal-mode state whose single entry has a two-character note, on a
58-column terminal. -/
def t3c : TUI := ⟨[⟨1, 4999, "manual", "recurring", "ab", 20000⟩], 0, 0, 58, 30, "", "", "", .default⟩

/-- Normal-mode state: six entries, cursor on the last, terminal height 20. -/
def tResize : TUI := ⟨List.replicate 6 e1, 5, 0, 80, 20, "", "", "", .default⟩

/-- C2, counterexample: from a state satisfying the renderer-window invariant
(two entries, height 8, cursor and offset at 0), a single `j` press yields
`selected = 1` while `adjustOffset` (which reckons with `height - 6 = 2`
visible rows) leaves `offset = 0`; the renderer draws `height - 7 = 1` row,
so `selected ≤ offset + visibleRows - 1` fails for the renderer's visible
row count. -/
theorem jk_render_window_cex :
    renderScrollInvariant t2c ∧
    ¬ renderScrollInvariant (applyMoves t2c [MoveKey.down]) ∧
    scrollInvariant (applyMoves t2c [MoveKey.down]) := by
  decide

/-- C2 (corrected): for every state satisfying the scroll invariant taken
with the visible row count `adjustOffset` itself uses (`height - 6`, clamped
at 1), every sequence of `j`/`k` presses in Normal mode keeps `selected`
within `[0, len(entries)-1]` and keeps
`offset ≤ selected ≤ offset + visibleRows - 1` after each move. (As stated,
with the renderer's `height - 7` count, the claim is false: see the
counterexample.) -/
theorem jk_moves_scroll_invariant (t : TUI) (ks : List MoveKey)
    (h : scrollInvariant t) : scrollInvariant (applyMoves t ks) := by
  induction ks generalizing t with
  | nil => exact h
  | cons k ks ih => exact ih _ (applyMove_scrollInvariant t k h)

/-- C2, witness: the invariant theorem applied to the concrete two-entry
state and the press sequence `j j k`. -/
theorem jk_moves_scroll_invariant_witness :
    scrollInvariant (applyMoves t2c [MoveKey.down, MoveKey.down, MoveKey.up]) :=
  jk_moves_scroll_invariant t2c [MoveKey.down, MoveKey.down, MoveKey.up] (by decide)

/-- C3 (code_bug): rendering is not total. At terminal width 58 the note
column width is `58 - 58 = 0` after the clamp at 0, and a non-empty
two-character note takes the truncation branch, which slices
`note[:0-3]`, i.e. `note[:-3]` — an out-of-range string slice that panics in
Go. `renderRows` evaluates the render loop at that failing input to the
panic value `none`. -/
theorem render_note_panics_on_narrow_width :
    renderRows t3c = none ∧ renderNoteCell 58 "ab" = none := by
  decide

/-- C4, counterexample: resizing from height 20 to height 8 with the cursor
on row 5 and offset 0 leaves `selected`/`offset` untouched, so in the state
produced by the resize the selected row is outside the visible window for
both visible-row counts (`height - 6` and the renderer's `height - 7`): the
scroll-follows-cursor adjustment is not re-applied. -/
theorem resize_rescroll_cex :
    eventStep tResize oAll (Ev.resize 80 8) =
      some (some { tResize with width := 80, height := 8 }) ∧
    scrollInvariant tResize ∧
    ¬ scrollInvariant { tResize with width := 80, height := 8 } ∧
    ¬ renderScrollInvariant { tResize with width := 80, height := 8 } := by
  refine ⟨rfl, by decide, by decide, by decide⟩

/-- C4 (corrected): handling a resize event updates exactly the stored
terminal dimensions and re-renders; the scroll-follows-cursor adjustment is
not re-applied, so `entries`, `selected` and `offset` are left unchanged and
the selected row may lie outside the new visible window. -/
theorem resize_updates_only_dimensions (t : TUI) (o : StoreOracle) (w h : Int) :
    eventStep t o (Ev.resize w h) = some (some { t with width := w, height := h }) := rfl

/-- C5 (confirmed): when the store's list-all call fails during a refresh,
`entries`, `selected` and `offset` keep exactly their previous values, and an
error status message (in the error style) is set, for every prior state and
every store error. -/
theorem refresh_error_preserves_view (t : TUI) (e : String) :
    (refresh t (Except.error e)).entries = t.entries ∧
    (refresh t (Except.error e)).selected = t.selected ∧
    (refresh t (Except.error e)).offset = t.offset ∧
    (refresh t (Except.error e)).message = "Error loading entries: " ++ e ∧
    (refresh t (Except.error e)).msgStyle = Style.red :=
  ⟨rfl, rfl, rfl, rfl, rfl⟩

/-- C10 (confirmed): after a successful refresh, `entries` is the reloaded
list; when that list is non-empty, `selected` is back within
`[0, len(entries)-1]`; it is clamped down to `len - 1` exactly when it was
at or beyond `len`, left unchanged when it was below `len`, never increased,
and left at its prior value when the reloaded list is empty. -/
theorem refresh_ok_clamps_selected (t : TUI) (l : List Entry) (h0 : 0 ≤ t.selected) :
    (refresh t (Except.ok l)).entries = l ∧
    (l ≠ [] → 0 ≤ (refresh t (Except.ok l)).selected ∧
      (refresh t (Except.ok l)).selected < (l.length : Int)) ∧
    (t.selected < (l.length : Int) → (refresh t (Except.ok l)).selected = t.selected) ∧
    (refresh t (Except.ok l)).selected ≤ t.selected ∧
    (l = [] → (refresh t (Except.ok l)).selected = t.selected) ∧
    ((l.length : Int) ≤ t.selected → l ≠ [] → (refresh t (Except.ok l)).selected = (l.length : Int) - 1) := by
  simp only [refresh]
  split_ifs with h
  · obtain ⟨ha, hb⟩ := h
    refine ⟨rfl, fun hl => ⟨by dsimp only; omega, by dsimp only; omega⟩,
            fun hl => by dsimp only; omega,
            by dsimp only; omega,
            fun hl => ?_,
            fun hl hl2 => by dsimp only⟩
    exfalso
    rw [hl] at hb
    simp at hb
  · have hcase := not_and_or.mp h
    refine ⟨rfl, fun hl => ?_, fun hl => by dsimp only, by dsimp only; omega,
            fun hl => by dsimp only, fun hl hl2 => ?_⟩
    · have hpos := List.length_pos.mpr hl
      rcases hcase with hc | hc
      · dsimp only
        omega
      · exact absurd hpos hc
    · have hpos := List.length_pos.mpr hl2
      rcases hcase with hc | hc <;> dsimp only <;> omega

/-- C10, witness: refresh of a two-entry prior state by a one-entry list
clamps the cursor from 1 to 0. -/
theorem refresh_ok_clamps_selected_witness :
    (refresh { t2c with selected := 1 } (Except.ok [e1])).entries = [e1] ∧
    ([e1] ≠ [] → 0 ≤ (refresh { t2c with selected := 1 } (Except.ok [e1])).selected ∧
      (refresh { t2c with selected := 1 } (Except.ok [e1])).selected < (([e1] : List Entry).length : Int)) ∧
    (({ t2c with selected := 1 } : TUI).selected < (([e1] : List Entry).length : Int) →
      (refresh { t2c with selected := 1 } (Except.ok [e1])).selected = ({ t2c with selected := 1 } : TUI).selected) ∧
    (refresh { t2c with selected := 1 } (Except.ok [e1])).selected ≤ ({ t2c with selected := 1 } : TUI).selected ∧
    (([e1] : List Entry) = [] → (refresh { t2c with selected := 1 } (Except.ok [e1])).selected = ({ t2c with selected := 1 } : TUI).selected) ∧
    ((([e1] : List Entry).length : Int) ≤ ({ t2c with selected := 1 } : TUI).selected → ([e1] : List Entry) ≠ [] →
      (refresh { t2c with selected := 1 } (Except.ok [e1])).selected = (([e1] : List Entry).length : Int) - 1) :=
  refresh_ok_clamps_selected { t2c with selected := 1 } [e1] (by decide)

/-! Branch lemmas for `submitInput`, one per control path. -/

lemma submitInput_add_ok (t : TUI) (o : StoreOracle) (q : ℚ) (i : Int)
    (hm : t.inputMode = "add")
    (hp : goParseFloat (goTrimDollar t.inputBuf) = some q)
    (ha : o.addRes = Except.ok i) :
    submitInput t o =
      some ({ t with message := "Entry added!", msgStyle := Style.green },
            [StoreCall.add (goTrunc (f64round (q * 100))) "manual" "recurring" "" o.now]) := by
  unfold submitInput
  rw [hm, if_pos (rfl : ("add" : String) = "add")]
  dsimp only
  rw [hp, ha]

lemma submitInput_add_err (t : TUI) (o : StoreOracle) (q : ℚ) (e : String)
    (hm : t.inputMode = "add")
    (hp : goParseFloat (goTrimDollar t.inputBuf) = some q)
    (ha : o.addRes = Except.error e) :
    submitInput t o =
      some ({ t with message := "Error: " ++ e, msgStyle := Style.red },
            [StoreCall.add (goTrunc (f64round (q * 100))) "manual" "recurring" "" o.now]) := by
  unfold submitInput
  rw [hm, if_pos (rfl : ("add" : String) = "add")]
  dsimp only
  rw [hp, ha]

lemma submitInput_add_nofloat (t : TUI) (o : StoreOracle)
    (hm : t.inputMode = "add")
    (hp : goParseFloat (goTrimDollar t.inputBuf) = none) :
    submitInput t o = some ({ t with message := "Invalid amount", msgStyle := Style.red }, []) := by
  unfold submitInput
  rw [hm, if_pos (rfl : ("add" : String) = "add")]
  dsimp only
  rw [hp]

lemma submitInput_edit_empty (t : TUI) (o : StoreOracle)
    (hm : t.inputMode = "edit")
    (he : t.entries.length = 0) :
    submitInput t o = some (t, []) := by
  unfold submitInput
  rw [hm, if_neg (by decide : ¬("edit" : String) = "add"),
      if_pos (rfl : ("edit" : String) = "edit"), if_pos he]

lemma submitInput_edit_nofloat (t : TUI) (o : StoreOracle)
    (hm : t.inputMode = "edit")
    (he : ¬ t.entries.length = 0)
    (hp : goParseFloat (goTrimDollar t.inputBuf) = none) :
    submitInput t o = some ({ t with message := "Invalid amount", msgStyle := Style.red }, []) := by
  unfold submitInput
  rw [hm, if_neg (by decide : ¬("edit" : String) = "add"),
      if_pos (rfl : ("edit" : String) = "edit"), if_neg he]
  dsimp only
  rw [hp]

lemma submitInput_edit_ok (t : TUI) (o : StoreOracle) (q : ℚ) (en : Entry)
    (hm : t.inputMode = "edit")
    (he : ¬ t.entries.length = 0)
    (hp : goParseFloat (goTrimDollar t.inputBuf) = some q)
    (hen : goIndex t.entries t.selected = some en)
    (hu : o.updateRes = Except.ok ()) :
    submitInput t o =
      some ({ t with message := "Entry updated!", msgStyle := Style.green },
            [StoreCall.update en.ID (goTrunc (f64round (q * 100)))]) := by
  unfold submitInput
  rw [hm, if_neg (by decide : ¬("edit" : String) = "add"),
      if_pos (rfl : ("edit" : String) = "edit"), if_neg he]
  dsimp only
  rw [hp, hen, hu]

lemma submitInput_edit_err (t : TUI) (o : StoreOracle) (q : ℚ) (en : Entry) (e : String)
    (hm : t.inputMode = "edit")
    (he : ¬ t.entries.length = 0)
    (hp : goParseFloat (goTrimDollar t.inputBuf) = some q)
    (hen : goIndex t.entries t.selected = some en)
    (hu : o.updateRes = Except.error e) :
    submitInput t o =
      some ({ t with message := "Error: " ++ e, msgStyle := Style.red },
            [StoreCall.update en.ID (goTrunc (f64round (q * 100)))]) := by
  unfold submitInput
  rw [hm, if_neg (by decide : ¬("edit" : String) = "add"),
      if_pos (rfl : ("edit" : String) = "edit"), if_neg he]
  dsimp only
  rw [hp, hen, hu]

lemma submitInput_delete_ok (t : TUI) (o : StoreOracle) (en : Entry)
    (hm : t.inputMode = "delete")
    (hy : goToLower t.inputBuf = "y")
    (hl : 0 < t.entries.length)
    (hen : goIndex t.entries t.selected = some en)
    (hd : o.deleteRes = Except.ok ()) :
    submitInput t o =
      some ((if 0 < t.selected then
               { t with message := "Entry deleted!", msgStyle := Style.green,
                        selected := t.selected - 1 }
             else { t with message := "Entry deleted!", msgStyle := Style.green }),
            [StoreCall.delete en.ID]) := by
  unfold submitInput
  rw [hm, if_neg (by decide : ¬("delete" : String) = "add"),
      if_neg (by decide : ¬("delete" : String) = "edit"),
      if_pos (rfl : ("delete" : String) = "delete"), if_pos ⟨hy, hl⟩, hen, hd]

lemma submitInput_delete_err (t : TUI) (o : StoreOracle) (en : Entry) (e : String)
    (hm : t.inputMode = "delete")
    (hy : goToLower t.inputBuf = "y")
    (hl : 0 < t.entries.length)
    (hen : goIndex t.entries t.selected = some en)
    (hd : o.deleteRes = Except.error e) :
    submitInput t o =
      some ({ t with message := "Error: " ++ e, msgStyle := Style.red },
            [StoreCall.delete en.ID]) := by
  unfold submitInput
  rw [hm, if_neg (by decide : ¬("delete" : String) = "add"),
      if_neg (by decide : ¬("delete" : String) = "edit"),
      if_pos (rfl : ("delete" : String) = "delete"), if_pos ⟨hy, hl⟩, hen, hd]

lemma submitInput_delete_cancel (t : TUI) (o : StoreOracle)
    (hm : t.inputMode = "delete")
    (hc : ¬(goToLower t.inputBuf = "y" ∧ 0 < t.entries.length)) :
    submitInput t o = some ({ t with message := "" }, []) := by
  unfold submitInput
  rw [hm, if_neg (by decide : ¬("delete" : String) = "add"),
      if_neg (by decide : ¬("delete" : String) = "edit"),
      if_pos (rfl : ("delete" : String) = "delete"), if_neg hc]

/-! Helper lemmas about `goIndex` and `refresh`. -/

lemma goIndex_some (l : List Entry) (i : Int) (h0 : 0 ≤ i) (h1 : i < (l.length : Int)) :
    goIndex l i = some (l.get ⟨i.toNat, by omega⟩) := by
  unfold goIndex
  rw [if_pos h0]
  exact List.getElem?_eq_getElem (by omega)

lemma refresh_ok_entries (t : TUI) (l : List Entry) :
    (refresh t (Except.ok l)).entries = l := by
  simp only [refresh]
  split_ifs <;> rfl

lemma refresh_inputMode (t : TUI) (r : Except String (List Entry)) :
    (refresh t r).inputMode = t.inputMode := by
  cases r with
  | error e => rfl
  | ok l =>
    simp only [refresh]
    split_ifs <;> rfl

lemma refresh_inputBuf (t : TUI) (r : Except String (List Entry)) :
    (refresh t r).inputBuf = t.inputBuf := by
  cases r with
  | error e => rfl
  | ok l =>
    simp only [refresh]
    split_ifs <;> rfl

/-! Concrete evaluations of the parsing pipeline. The double nearest to
49.99 is 7035467042882847/2^47; multiplying it by 100 in binary64 rounds to
exactly 4999. 19.5 and 1950 are exactly representable. -/

lemma parseDecimal_49_99 : parseDecimal "49.99" = some (4999 / 100 : ℚ) := by
  unfold parseDecimal
  rw [show parseDecimalRep "49.99" = some (4999, 2, 0) from by decide]
  simp only [Option.map_some']
  norm_num

lemma ilog2_49_99 : ilog2 (4999 / 100 : ℚ) = 5 := by
  unfold ilog2
  rw [if_pos (by norm_num : (1 : ℚ) ≤ 4999 / 100)]
  rw [show ⌊(4999 / 100 : ℚ)⌋ = 49 from by norm_num]
  decide

lemma f64round_49_99 : f64round (4999 / 100 : ℚ) = 7035467042882847 / 2 ^ 47 := by
  unfold f64round
  rw [if_neg (by norm_num : ¬(4999 / 100 : ℚ) = 0), if_pos (by norm_num : (0 : ℚ) < 4999 / 100),
      ilog2_49_99]
  norm_num [rnEven]

lemma ilog2_prod_49_99 : ilog2 ((7035467042882847 / 2 ^ 47 : ℚ) * 100) = 12 := by
  unfold ilog2
  rw [if_pos (by norm_num : (1 : ℚ) ≤ (7035467042882847 / 2 ^ 47 : ℚ) * 100)]
  rw [show ⌊((7035467042882847 / 2 ^ 47 : ℚ) * 100)⌋ = 4999 from by
    rw [show ((7035467042882847 / 2 ^ 47 : ℚ) * 100) = 703546704288284700 / 140737488355328 from by norm_num]
    norm_num]
  decide

lemma f64round_prod_49_99 : f64round ((7035467042882847 / 2 ^ 47 : ℚ) * 100) = 4999 := by
  unfold f64round
  rw [if_neg (by norm_num : ¬((7035467042882847 / 2 ^ 47 : ℚ) * 100) = 0),
      if_pos (by norm_num : (0 : ℚ) < (7035467042882847 / 2 ^ 47 : ℚ) * 100),
      ilog2_prod_49_99]
  norm_num [rnEven]

lemma goParseFloat_49_99 : goParseFloat (goTrimDollar "49.99") = some (7035467042882847 / 2 ^ 47 : ℚ) := by
  rw [show goTrimDollar "49.99" = "49.99" from by decide]
  unfold goParseFloat
  rw [parseDecimal_49_99]
  simp only [Option.map_some']
  rw [f64round_49_99]

lemma amount_49_99 : goTrunc (f64round ((7035467042882847 / 2 ^ 47 : ℚ) * 100)) = 4999 := by
  rw [f64round_prod_49_99]
  unfold goTrunc
  rw [if_pos (by norm_num : (0 : ℚ) ≤ 4999)]
  norm_num

lemma parseDecimal_19_5 : parseDecimal "19.5" = some (39 / 2 : ℚ) := by
  unfold parseDecimal
  rw [show parseDecimalRep "19.5" = some (195, 1, 0) from by decide]
  simp only [Option.map_some']
  norm_num

lemma ilog2_19_5 : ilog2 (39 / 2 : ℚ) = 4 := by
  unfold ilog2
  rw [if_pos (by norm_num : (1 : ℚ) ≤ 39 / 2)]
  rw [show ⌊(39 / 2 : ℚ)⌋ = 19 from by norm_num]
  decide

lemma f64round_19_5 : f64round (39 / 2 : ℚ) = 39 / 2 := by
  unfold f64round
  rw [if_neg (by norm_num : ¬(39 / 2 : ℚ) = 0), if_pos (by norm_num : (0 : ℚ) < 39 / 2),
      ilog2_19_5]
  norm_num [rnEven]

lemma ilog2_1950 : ilog2 ((39 / 2 : ℚ) * 100) = 10 := by
  unfold ilog2
  rw [if_pos (by norm_num : (1 : ℚ) ≤ (39 / 2 : ℚ) * 100)]
  rw [show ⌊((39 / 2 : ℚ) * 100)⌋ = 1950 from by norm_num]
  decide

lemma f64round_1950 : f64round ((39 / 2 : ℚ) * 100) = 1950 := by
  unfold f64round
  rw [if_neg (by norm_num : ¬((39 / 2 : ℚ) * 100) = 0),
      if_pos (by norm_num : (0 : ℚ) < (39 / 2 : ℚ) * 100),
      ilog2_1950]
  norm_num [rnEven]

lemma goParseFloat_19_5 : goParseFloat (goTrimDollar "$19.5") = some (39 / 2 : ℚ) := by
  rw [show goTrimDollar "$19.5" = "19.5" from by decide]
  unfold goParseFloat
  rw [parseDecimal_19_5]
  simp only [Option.map_some']
  rw [f64round_19_5]

lemma amount_19_5 : goTrunc (f64round ((39 / 2 : ℚ) * 100)) = 1950 := by
  rw [f64round_1950]
  unfold goTrunc
  rw [if_pos (by norm_num : (0 : ℚ) ≤ 1950)]
  norm_num

lemma parseDecimal_5 : parseDecimal "5" = some (5 : ℚ) := by
  unfold parseDecimal
  rw [show parseDecimalRep "5" = some (5, 0, 0) from by decide]
  simp only [Option.map_some']
  norm_num

lemma ilog2_5 : ilog2 (5 : ℚ) = 2 := by
  unfold ilog2
  rw [if_pos (by norm_num : (1 : ℚ) ≤ 5)]
  rw [show ⌊(5 : ℚ)⌋ = 5 from by norm_num]
  decide

lemma f64round_5 : f64round (5 : ℚ) = 5 := by
  unfold f64round
  rw [if_neg (by norm_num : ¬(5 : ℚ) = 0), if_pos (by norm_num : (0 : ℚ) < 5), ilog2_5]
  norm_num [rnEven]

lemma goParseFloat_5 : goParseFloat (goTrimDollar "5") = some (5 : ℚ) := by
  rw [show goTrimDollar "5" = "5" from by decide]
  unfold goParseFloat
  rw [parseDecimal_5]
  simp only [Option.map_some']
  rw [f64round_5]

/-- C9 (confirmed): submitting AddInput with buffer `"49.99"` issues an
insert with amount 4999 cents, source `"manual"`, kind `"recurring"`, empty
note and the current date; buffer `"$19.5"` has its leading currency symbol
stripped before parsing and yields an insert with amount 1950 cents — for
every prior state and every successful store insert. -/
theorem addSubmit_amount_cents (t : TUI) (o : StoreOracle) (i : Int)
    (ha : o.addRes = Except.ok i) :
    submitInput { t with inputMode := "add", inputBuf := "49.99" } o
      = some ({ t with inputMode := "add", inputBuf := "49.99",
                       message := "Entry added!", msgStyle := Style.green },
              [StoreCall.add 4999 "manual" "recurring" "" o.now]) ∧
    submitInput { t with inputMode := "add", inputBuf := "$19.5" } o
      = some ({ t with inputMode := "add", inputBuf := "$19.5",
                       message := "Entry added!", msgStyle := Style.green },
              [StoreCall.add 1950 "manual" "recurring" "" o.now]) := by
  constructor
  · rw [submitInput_add_ok { t with inputMode := "add", inputBuf := "49.99" } o
        (7035467042882847 / 2 ^ 47) i rfl goParseFloat_49_99 ha, amount_49_99]
  · rw [submitInput_add_ok { t with inputMode := "add", inputBuf := "$19.5" } o
        (39 / 2) i rfl goParseFloat_19_5 ha, amount_19_5]

/-- C9, witness: the amount theorem applied at a concrete empty starting
state and an all-succeeding store. -/
theorem addSubmit_amount_cents_witness :
    submitInput { t2c with inputMode := "add", inputBuf := "49.99" } oAll
      = some ({ t2c with inputMode := "add", inputBuf := "49.99",
                         message := "Entry added!", msgStyle := Style.green },
              [StoreCall.add 4999 "manual" "recurring" "" oAll.now]) ∧
    submitInput { t2c with inputMode := "add", inputBuf := "$19.5" } oAll
      = some ({ t2c with inputMode := "add", inputBuf := "$19.5",
                         message := "Entry added!", msgStyle := Style.green },
              [StoreCall.add 1950 "manual" "recurring" "" oAll.now]) :=
  addSubmit_amount_cents t2c oAll 1 rfl

/-- The event loop's handling of Enter in any input mode (part_005 lines
64-72): on a `true` return from `handleInput` it clears the mode and the
buffer and then calls `refresh`. -/
lemma eventStep_enter_submit (t : TUI) (o : StoreOracle) (t1 : TUI) (cs : List StoreCall)
    (hm : t.inputMode ≠ "")
    (hs : submitInput t o = some (t1, cs)) :
    eventStep t o (Ev.key Key.enter) =
      some (some (refresh { t1 with inputMode := "", inputBuf := "" } o.getAllRes)) := by
  unfold eventStep handleInput
  dsimp only
  rw [if_pos hm, hs]
  rfl

/-- The state in which the AddInput prompt is submitted with buffer `"5"`. -/
def tAdd : TUI := ⟨[], 0, 0, 80, 24, "add", "5", "Add entry (amount): ", .default⟩

/-- C1, counterexample: submitting AddInput with the valid buffer `"5"` from
an empty view, with the insert succeeding and the store now holding `e1`,
produces a state whose `entries` already contain the new record: the event
loop reloads from the store right after the submit (part_005 line 69), so
the record is visible without any later manual or automatic refresh. -/
theorem addSubmit_no_reload_cex :
    eventStep tAdd oAll (Ev.key Key.enter) =
      some (some { tAdd with entries := [e1], inputMode := "", inputBuf := "",
                             message := "Entry added!", msgStyle := Style.green }) := by
  rw [eventStep_enter_submit tAdd oAll _ _ (by decide)
      (submitInput_add_ok tAdd oAll 5 1 rfl goParseFloat_5 rfl)]
  rfl

/-- C1 (corrected): after a successful AddInput submit (buffer parsed,
insert call succeeded), the event loop clears the mode and buffer and
immediately reloads `entries` from the store — the claim's assertion that
the snapshot is not reloaded and the record stays invisible until a later
refresh is false; the reload happens on this very path, for every starting
state and every valid amount buffer. -/
theorem addSubmit_triggers_reload (t : TUI) (o : StoreOracle) (q : ℚ) (i : Int) (l : List Entry)
    (hm : t.inputMode = "add")
    (hp : goParseFloat (goTrimDollar t.inputBuf) = some q)
    (ha : o.addRes = Except.ok i)
    (hg : o.getAllRes = Except.ok l) :
    ∃ t', eventStep t o (Ev.key Key.enter) = some (some t') ∧
      t'.entries = l ∧ t'.inputMode = "" ∧ t'.inputBuf = "" := by
  have hne : t.inputMode ≠ "" := by
    rw [hm]
    decide
  have hstep := eventStep_enter_submit t o _ _ hne (submitInput_add_ok t o q i hm hp ha)
  refine ⟨_, hstep, ?_, ?_, ?_⟩
  · rw [hg]
    exact refresh_ok_entries _ l
  · rw [refresh_inputMode]
  · rw [refresh_inputBuf]

/-- C1, witness: the reload theorem applied at the concrete add-mode state,
buffer `"5"`, and an all-succeeding store returning `[e1]`. -/
theorem addSubmit_triggers_reload_witness :
    ∃ t', eventStep tAdd oAll (Ev.key Key.enter) = some (some t') ∧
      t'.entries = [e1] ∧ t'.inputMode = "" ∧ t'.inputBuf = "" :=
  addSubmit_triggers_reload tAdd oAll 5 1 [e1] rfl goParseFloat_5 rfl rfl

/-! Character-level facts about the case fold used by DeleteConfirm. -/

lemma toNat_ofNat_valid (n : ℕ) (h : Nat.isValidChar n) : (Char.ofNat n).toNat = n := by
  rw [Char.ofNat, dif_pos h]
  rfl

lemma char_eq_y_iff (d : Char) : d = 'y' ↔ d.toNat = 121 := by
  constructor
  · intro h
    rw [h]
    decide
  · intro h
    have h2 := Char.ofNat_toNat d
    rw [h] at h2
    rw [← h2]

lemma char_eq_Y_iff (d : Char) : d = 'Y' ↔ d.toNat = 89 := by
  constructor
  · intro h
    rw [h]
    decide
  · intro h
    have h2 := Char.ofNat_toNat d
    rw [h] at h2
    rw [← h2]

lemma goCharToLower_eq_y (c : Char) : goCharToLower c = 'y' ↔ c = 'y' ∨ c = 'Y' := by
  unfold goCharToLower
  split_ifs with h
  · obtain ⟨h1, h2⟩ := h
    rw [char_eq_y_iff, char_eq_Y_iff, char_eq_y_iff c,
        toNat_ofNat_valid (c.toNat + 32) (Or.inl (by omega))]
    omega
  · constructor
    · exact Or.inl
    · rintro (hc | hc)
      · exact hc
      · exfalso
        rw [char_eq_Y_iff] at hc
        exact h ⟨by omega, by omega⟩

lemma goToLower_eq_y (s : String) : goToLower s = "y" ↔ s = "y" ∨ s = "Y" := by
  obtain ⟨l⟩ := s
  have hmk : ∀ (a b : List Char), (String.mk a = String.mk b) ↔ a = b := by
    intro a b
    constructor
    · intro h
      injection h
    · intro h
      rw [h]
  unfold goToLower
  rw [show ("y" : String) = String.mk ['y'] from rfl,
      show ("Y" : String) = String.mk ['Y'] from rfl]
  simp only [hmk]
  cases l with
  | nil => simp
  | cons c r =>
    cases r with
    | nil => simp [goCharToLower_eq_y c]
    | cons c2 r2 => simp [goCharToLower_eq_y c]

/-- C6 (confirmed): in DeleteConfirm mode, submitting compares the buffer
case-insensitively with the literal `y`; exactly the buffers folding to
`"y"` — that is, `"y"` and `"Y"` — cause a delete call on the selected
record, and every other buffer issues no store call, silently clears the
message, and returns `true` so the run loop leaves the mode. -/
theorem deleteConfirm_exactly_y (t : TUI) (o : StoreOracle) (en : Entry)
    (hm : t.inputMode = "delete")
    (hne : t.entries ≠ [])
    (hen : goIndex t.entries t.selected = some en) :
    ((goToLower t.inputBuf = "y") ↔ (t.inputBuf = "y" ∨ t.inputBuf = "Y")) ∧
    (goToLower t.inputBuf = "y" →
      ∃ t', submitInput t o = some (t', [StoreCall.delete en.ID])) ∧
    (¬ goToLower t.inputBuf = "y" →
      handleInput t o Key.enter = some (true, { t with message := "" }, [])) := by
  have hlen : 0 < t.entries.length := List.length_pos.mpr hne
  refine ⟨goToLower_eq_y t.inputBuf, fun hy => ?_, fun hn => ?_⟩
  · cases hd : o.deleteRes with
    | ok u =>
      cases u
      exact ⟨_, submitInput_delete_ok t o en hm hy hlen hen hd⟩
    | error e => exact ⟨_, submitInput_delete_err t o en e hm hy hlen hen hd⟩
  · unfold handleInput
    dsimp only
    rw [submitInput_delete_cancel t o hm (fun hc => hn hc.1)]
    rfl

/-- The concrete DeleteConfirm state used by the C6 witness. -/
def tDel : TUI := ⟨[e1, e2], 0, 0, 80, 24, "delete", "Y", "Delete this entry? (y/n): ", .default⟩

/-- C6, witness: the DeleteConfirm theorem applied at a concrete state with
buffer `"Y"`, two entries and the first selected. -/
theorem deleteConfirm_exactly_y_witness :
    ((goToLower tDel.inputBuf = "y") ↔ (tDel.inputBuf = "y" ∨ tDel.inputBuf = "Y")) ∧
    (goToLower tDel.inputBuf = "y" →
      ∃ t', submitInput tDel oAll = some (t', [StoreCall.delete e1.ID])) ∧
    (¬ goToLower tDel.inputBuf = "y" →
      handleInput tDel oAll Key.enter = some (true, { tDel with message := "" }, [])) :=
  deleteConfirm_exactly_y tDel oAll e1 rfl (by decide) (by decide)

/-- C8 (confirmed): after a successful delete confirmation, `selected`
decrements by exactly 1 when its prior value was greater than 0, and stays 0
when its prior value was 0, for every non-empty entries list. -/
theorem delete_success_selected_decrements (t : TUI) (o : StoreOracle) (en : Entry)
    (hm : t.inputMode = "delete")
    (hy : goToLower t.inputBuf = "y")
    (hl : 0 < t.entries.length)
    (hen : goIndex t.entries t.selected = some en)
    (hd : o.deleteRes = Except.ok ()) :
    ∃ t' cs, submitInput t o = some (t', cs) ∧
      (0 < t.selected → t'.selected = t.selected - 1) ∧
      (t.selected = 0 → t'.selected = 0) := by
  refine ⟨_, _, submitInput_delete_ok t o en hm hy hl hen hd, fun h => ?_, fun h => ?_⟩
  · rw [if_pos h]
  · rw [if_neg (by omega : ¬ 0 < t.selected)]
    exact h

/-- The concrete DeleteConfirm state used by the C8 witness: cursor on the
second of two entries. -/
def tDel8 : TUI := ⟨[e1, e2], 1, 0, 80, 24, "delete", "y", "Delete this entry? (y/n): ", .default⟩

/-- C8, witness: the decrement theorem applied at a concrete state with the
second entry selected; the cursor moves from 1 to 0. -/
theorem delete_success_selected_decrements_witness :
    ∃ t' cs, submitInput tDel8 oAll = some (t', cs) ∧
      (0 < tDel8.selected → t'.selected = tDel8.selected - 1) ∧
      (tDel8.selected = 0 → t'.selected = 0) :=
  delete_success_selected_decrements tDel8 oAll e2 rfl (by decide) (by decide) (by decide) rfl

/-- `submitInput` never panics when the cursor invariant holds (empty view,
or `selected` within bounds): some state-and-calls pair is always produced. -/
lemma submitInput_total (t : TUI) (o : StoreOracle)
    (hsel : t.entries = [] ∨ (0 ≤ t.selected ∧ t.selected < (t.entries.length : Int))) :
    ∃ p, submitInput t o = some p := by
  by_cases hm : t.inputMode = "add"
  · cases hp : goParseFloat (goTrimDollar t.inputBuf) with
    | none => exact ⟨_, submitInput_add_nofloat t o hm hp⟩
    | some q =>
      cases ha : o.addRes with
      | ok i => exact ⟨_, submitInput_add_ok t o q i hm hp ha⟩
      | error e => exact ⟨_, submitInput_add_err t o q e hm hp ha⟩
  by_cases hm2 : t.inputMode = "edit"
  · by_cases he : t.entries.length = 0
    · exact ⟨_, submitInput_edit_empty t o hm2 he⟩
    · have hix : goIndex t.entries t.selected = some (t.entries.get ⟨t.selected.toNat, by
        rcases hsel with h | ⟨h1, h2⟩
        · exact absurd (by rw [h]; rfl) he
        · omega⟩) := by
        rcases hsel with h | ⟨h1, h2⟩
        · exact absurd (by rw [h]; rfl) he
        · exact goIndex_some t.entries t.selected h1 h2
      cases hp : goParseFloat (goTrimDollar t.inputBuf) with
      | none => exact ⟨_, submitInput_edit_nofloat t o hm2 he hp⟩
      | some q =>
        cases hu : o.updateRes with
        | ok u =>
          cases u
          exact ⟨_, submitInput_edit_ok t o q _ hm2 he hp hix hu⟩
        | error e => exact ⟨_, submitInput_edit_err t o q _ e hm2 he hp hix hu⟩
  by_cases hm3 : t.inputMode = "delete"
  · by_cases hc : goToLower t.inputBuf = "y" ∧ 0 < t.entries.length
    · have hix : goIndex t.entries t.selected = some (t.entries.get ⟨t.selected.toNat, by
        rcases hsel with h | ⟨h1, h2⟩
        · exact absurd hc.2 (by rw [h]; decide)
        · omega⟩) := by
        rcases hsel with h | ⟨h1, h2⟩
        · exact absurd hc.2 (by rw [h]; decide)
        · exact goIndex_some t.entries t.selected h1 h2
      cases hd : o.deleteRes with
      | ok u =>
        cases u
        exact ⟨_, submitInput_delete_ok t o _ hm3 hc.1 hc.2 hix hd⟩
      | error e => exact ⟨_, submitInput_delete_err t o _ e hm3 hc.1 hc.2 hix hd⟩
    · exact ⟨_, submitInput_delete_cancel t o hm3 hc⟩
  · refine ⟨(t, []), ?_⟩
    unfold submitInput
    rw [if_neg hm, if_neg hm2, if_neg hm3]

/-- In an input mode, no key event makes the event loop return: the
`some none` (quit) outcome only arises from the Normal-mode dispatch. -/
lemma eventStep_input_not_quit (t : TUI) (o : StoreOracle) (k : Key) (hm : t.inputMode ≠ "") :
    eventStep t o (Ev.key k) ≠ some none := by
  unfold eventStep
  dsimp only
  rw [if_pos hm]
  cases hh : handleInput t o k with
  | none => simp
  | some p =>
    obtain ⟨done, t', cs⟩ := p
    cases done <;> simp

/-- C7 (confirmed): in every input mode (add, edit, delete-confirm), for
every buffer and store outcome, pressing Enter submits and returns the
controller to Normal mode with an empty input buffer; no key pressed in an
input mode ends the session (only explicit quit from Normal does); and a
store failure during an add, edit or delete submit is reported through the
`"Error: ..."` status message in the error style rather than by terminating
the loop. -/
theorem enter_submits_returns_normal (t : TUI) (o : StoreOracle)
    (hmode : t.inputMode = "add" ∨ t.inputMode = "edit" ∨ t.inputMode = "delete")
    (hsel : t.entries = [] ∨ (0 ≤ t.selected ∧ t.selected < (t.entries.length : Int))) :
    (∃ t', eventStep t o (Ev.key Key.enter) = some (some t') ∧
       t'.inputMode = "" ∧ t'.inputBuf = "") ∧
    (∀ k, eventStep t o (Ev.key k) ≠ some none) ∧
    (∀ q e, t.inputMode = "add" → goParseFloat (goTrimDollar t.inputBuf) = some q →
       o.addRes = Except.error e →
       ∃ cs, submitInput t o = some ({ t with message := "Error: " ++ e, msgStyle := Style.red }, cs)) ∧
    (∀ q en e, t.inputMode = "edit" → ¬ t.entries.length = 0 →
       goParseFloat (goTrimDollar t.inputBuf) = some q →
       goIndex t.entries t.selected = some en →
       o.updateRes = Except.error e →
       ∃ cs, submitInput t o = some ({ t with message := "Error: " ++ e, msgStyle := Style.red }, cs)) ∧
    (∀ en e, t.inputMode = "delete" → goToLower t.inputBuf = "y" → 0 < t.entries.length →
       goIndex t.entries t.selected = some en →
       o.deleteRes = Except.error e →
       ∃ cs, submitInput t o = some ({ t with message := "Error: " ++ e, msgStyle := Style.red }, cs)) := by
  have hne : t.inputMode ≠ "" := by
    rcases hmode with h | h | h <;> rw [h] <;> decide
  obtain ⟨⟨t1, cs⟩, hs⟩ := submitInput_total t o hsel
  exact ⟨⟨_, eventStep_enter_submit t o t1 cs hne hs, refresh_inputMode _ _, refresh_inputBuf _ _⟩,
         fun k => eventStep_input_not_quit t o k hne,
         fun q e hm hp ha => ⟨_, submitInput_add_err t o q e hm hp ha⟩,
         fun q en e hm hne2 hp hen hu => ⟨_, submitInput_edit_err t o q en e hm hne2 hp hen hu⟩,
         fun en e hm hy hl hen hd => ⟨_, submitInput_delete_err t o en e hm hy hl hen hd⟩⟩

/-- C7, witness: the theorem applied at the concrete add-mode state with an
empty view and the all-succeeding store. -/
theorem enter_submits_returns_normal_witness :
    (∃ t', eventStep tAdd oAll (Ev.key Key.enter) = some (some t') ∧
       t'.inputMode = "" ∧ t'.inputBuf = "") ∧
    (∀ k, eventStep tAdd oAll (Ev.key k) ≠ some none) ∧
    (∀ q e, tAdd.inputMode = "add" → goParseFloat (goTrimDollar tAdd.inputBuf) = some q →
       oAll.addRes = Except.error e →
       ∃ cs, submitInput tAdd oAll = some ({ tAdd with message := "Error: " ++ e, msgStyle := Style.red }, cs)) ∧
    (∀ q en e, tAdd.inputMode = "edit" → ¬ tAdd.entries.length = 0 →
       goParseFloat (goTrimDollar tAdd.inputBuf) = some q →
       goIndex tAdd.entries tAdd.selected = some en →
       oAll.updateRes = Except.error e →
       ∃ cs, submitInput tAdd oAll = some ({ tAdd with message := "Error: " ++ e, msgStyle := Style.red }, cs)) ∧
    (∀ en e, tAdd.inputMode = "delete" → goToLower tAdd.inputBuf = "y" → 0 < tAdd.entries.length →
       goIndex tAdd.entries tAdd.selected = some en →
       oAll.deleteRes = Except.error e →
       ∃ cs, submitInput tAdd oAll = some ({ tAdd with message := "Error: " ++ e, msgStyle := Style.red }, cs)) :=
  enter_submits_returns_normal tAdd oAll (Or.inl rfl) (Or.inl rfl)
